import Mathlib

/-!
# Verification of the alloy-analysis engine of `my-telegram-bot`

A shallow embedding, in Lean 4, of the composition-parsing and
alloy-matching core of `src/main.py`:

* `parse_composition` — `CompositionAnalyzer.parse_composition` (lines 29-53);
* `analyze_composition`, `get_alloy_description`, `get_applications` —
  `CompositionAnalyzer.analyze_composition` and its helpers (lines 55-87);
* `filter_relevant_alloys` — `CompositionAnalyzer.filter_relevant_alloys`
  (lines 108-110);
* `load_demo_data`, `find_matching_alloys`, `calculate_similarity` —
  `AlloyDatabase` (lines 112-152).

Python `float` values are embedded as rationals (`ℚ`); Python `dict`s with
string keys are embedded as insertion-ordered association lists with unique
keys, mirroring dict iteration order and last-write-wins assignment.
-/

namespace MetalBot

/-- Digits-to-number accumulation: the numeric value of a list of decimal
digit characters (most significant first). -/
def digitsToNat (ds : List Char) : Nat :=
  ds.foldl (fun n c => n * 10 + (c.toNat - 48)) 0

/-- The shape of a numeric token accepted by Python `float()` in its decimal
form: optional sign, integer digits, optional fractional digits, optional
exponent, with at least one mantissa digit.  (The exotic accepted spellings
`inf`/`nan`, digit-group underscores and surrounding whitespace are not
modelled; no token the program ever passes to `float` uses them, since
tokens come from whitespace splitting.) -/
structure FloatParts where
  negative : Bool
  intDigits : List Char
  fracDigits : List Char
  expNegative : Bool
  expDigits : List Char
deriving DecidableEq

/-- Recognise the exponent field after `e`/`E`: optional sign then at least
one digit. -/
def expParts : List Char → Option (Bool × List Char)
  | '+' :: ds => if ds ≠ [] ∧ ds.all Char.isDigit then some (false, ds) else none
  | '-' :: ds => if ds ≠ [] ∧ ds.all Char.isDigit then some (true, ds) else none
  | ds => if ds ≠ [] ∧ ds.all Char.isDigit then some (false, ds) else none

/-- Split a character list into integer digits, fractional digits and the
remaining characters (the part after the mantissa). -/
def mantissaSplit (cs : List Char) : List Char × List Char × List Char :=
  let ip := cs.takeWhile Char.isDigit
  let rest := cs.dropWhile Char.isDigit
  match rest with
  | '.' :: r => (ip, r.takeWhile Char.isDigit, r.dropWhile Char.isDigit)
  | r => (ip, [], r)

/-- Recognise an unsigned decimal float token (sign already stripped). -/
def floatPartsCore (cs : List Char) (neg : Bool) : Option FloatParts :=
  match mantissaSplit cs with
  | (ip, fp, rest) =>
    if ip = [] ∧ fp = [] then none
    else
      match rest with
      | [] => some ⟨neg, ip, fp, false, []⟩
      | 'e' :: r =>
        match expParts r with
        | some (en, ed) => some ⟨neg, ip, fp, en, ed⟩
        | none => none
      | 'E' :: r =>
        match expParts r with
        | some (en, ed) => some ⟨neg, ip, fp, en, ed⟩
        | none => none
      | _ => none

/-- Recognise a decimal float token, sign included. -/
def floatParts : List Char → Option FloatParts
  | '+' :: cs => floatPartsCore cs false
  | '-' :: cs => floatPartsCore cs true
  | cs => floatPartsCore cs false

/-- The rational value denoted by a recognised float token. -/
def partsToRat (p : FloatParts) : ℚ :=
  let mant : ℚ :=
    (digitsToNat p.intDigits : ℚ) + (digitsToNat p.fracDigits : ℚ) / 10 ^ p.fracDigits.length
  let scaled : ℚ :=
    if p.expNegative then mant / 10 ^ digitsToNat p.expDigits
    else mant * 10 ^ digitsToNat p.expDigits
  if p.negative then -scaled else scaled

/-- Python's `float(s)` on the token strings this program produces:
`some` value on a well-formed decimal token, `none` where Python raises
`ValueError` (which `parse_composition` catches). -/
def pyFloat (s : String) : Option ℚ :=
  (floatParts s.data).map partsToRat

/-- `word.replace('%', '').replace(',', '')` from `main.py` line 43: delete
every `%` and every `,` from the token. -/
def stripPctComma (s : String) : String :=
  String.mk ((s.data.filter (· ≠ '%')).filter (· ≠ ','))

/-- Helper for `pySplit`: accumulate the current (reversed) token while
scanning the characters. -/
def splitWSAux : List Char → List Char → List String
  | [], [] => []
  | [], tok => [String.mk tok.reverse]
  | c :: cs, tok =>
    if c.isWhitespace then
      (if tok = [] then splitWSAux cs [] else String.mk tok.reverse :: splitWSAux cs [])
    else splitWSAux cs (c :: tok)

/-- Python's `text.split()` (`main.py` line 35): split on runs of
whitespace, never producing empty tokens. -/
def pySplit (s : String) : List String := splitWSAux s.data []

/-- A Python `dict[str, float]`: an insertion-ordered association list.
Keys are unique in every dict the program builds (`dictInsert` keeps them
unique), and lookup takes the first — hence only — binding of a key. -/
abbrev Composition := List (String × ℚ)

/-- Dict lookup `d[k]` (as an `Option`, `none` when the key is absent). -/
def dictLookup (d : Composition) (k : String) : Option ℚ :=
  match d with
  | [] => none
  | (k2, v) :: d2 => if k2 = k then some v else dictLookup d2 k

/-- Dict assignment `d[k] = v`: overwrite in place if the key is present
(keeping its position, as Python dicts do), else append at the end. -/
def dictInsert (d : Composition) (k : String) (v : ℚ) : Composition :=
  match d with
  | [] => [(k, v)]
  | (k2, v2) :: d2 => if k2 = k then (k, v) :: d2 else (k2, v2) :: dictInsert d2 k v

/-- The supported element vocabulary (`main.py` line 37). -/
def elements : List String :=
  ["Cu", "Zn", "Pb", "Fe", "Al", "Ni", "Sn", "Ti", "Si", "C", "Mn", "Cr", "Mg"]

/-- One iteration of the scanning loop (`main.py` lines 39-47) at a word
`w` whose successor token is `next`: if `w` is a supported element and the
successor (with `%` and `,` stripped) parses as a float, record the pair;
a failed parse is the caught `ValueError`, recorded as nothing. -/
def scanStep (acc : Composition) (w next : String) : Composition :=
  if w ∈ elements then
    match pyFloat (stripPctComma next) with
    | some v => dictInsert acc w v
    | none => acc
  else acc

/-- The scanning loop over the word list (`main.py` lines 39-47).  The last
word has no successor (`i + 1 < len(words)` fails), so it never records a
pair; every other word is processed by `scanStep` with its successor. -/
def scanAux : List String → Composition → Composition
  | [], acc => acc
  | [_], acc => acc
  | w :: next :: rest, acc => scanAux (next :: rest) (scanStep acc w next)

/-- The fixed demo composition substituted by the fallback on
`main.py` lines 50-51. -/
def demoComposition : Composition := [("Cu", 75.45), ("Ni", 12.50), ("Zn", 9.76)]

/-- `CompositionAnalyzer.parse_composition` (`main.py` lines 29-53): split
the text into words, scan for element/value pairs, and — per the fallback
on lines 50-51 — substitute the demo composition when nothing was found. -/
def parse_composition (text : String) : Composition :=
  let c := scanAux (pySplit text) []
  if c = [] then demoComposition else c

/-- `'e' in composition` — Python dict key membership. -/
def hasKey (c : Composition) (e : String) : Bool :=
  (dictLookup c e).isSome

/-- The guard `'e' in composition and composition['e'] > 50` from
`_get_alloy_description` (`main.py` lines 68, 70, 72), with Python's
short-circuit `and` rendered as a match on the lookup. -/
def hasKeyOver50 (c : Composition) (e : String) : Bool :=
  match dictLookup c e with
  | some v => v > 50
  | none => false

/-- `CompositionAnalyzer._get_alloy_description` (`main.py` lines 66-75):
the first matching threshold rule picks the narrative. -/
def get_alloy_description (c : Composition) : String :=
  if hasKeyOver50 c "Cu" then
    "Этот сплав состоит в основном из **меди (Cu)**, что характерно для латуней или бронз."
  else if hasKeyOver50 c "Al" then
    "Это **алюминиевый сплав** с хорошим сочетанием прочности и легкости."
  else if hasKeyOver50 c "Fe" then
    "Это **железный сплав** (сталь или чугун) с характерными свойствами."
  else
    "Это сложный многокомпонентный сплав с интересными свойствами."

/-- `CompositionAnalyzer._get_applications` (`main.py` lines 77-87). -/
def get_applications (c : Composition) : List String :=
  let apps :=
    (if hasKey c "Cu" then ["электротехника", "ювелирные изделия", "сантехника"] else []) ++
    (if hasKey c "Al" then ["авиация", "упаковка", "строительство"] else []) ++
    (if hasKey c "Fe" then ["машиностроение", "строительство", "инструменты"] else [])
  if apps = [] then ["различные технические применения"] else apps.take 4

/-- Python `max(c.items(), key=lambda x: x[1])`: the first item whose value
is maximal (`max` replaces the running best only on a strictly greater
key). -/
def pyMaxItem : Composition → Option (String × ℚ)
  | [] => none
  | p :: ps => some (ps.foldl (fun best q => if best.2 < q.2 then q else best) p)

/-- The result dict of `analyze_composition` (`main.py` lines 59-64). -/
structure Analysis where
  description : String
  main_element : Option (String × ℚ)
  possible_applications : List String
  recommendations : List String
deriving DecidableEq

/-- `CompositionAnalyzer.analyze_composition` (`main.py` lines 55-64):
`main_element` is `max(composition.items(), key=...) if composition else
None`. -/
def analyze_composition (c : Composition) : Analysis :=
  { description := get_alloy_description c
    main_element := pyMaxItem c
    possible_applications := get_applications c
    recommendations := ["Состав выглядит корректным"] }

/-- `composition.keys()` in iteration order. -/
def keys (c : Composition) : List String := c.map Prod.fst

/-- `set(comp1.keys()) & set(comp2.keys())` (`main.py` line 144), listed in
a fixed order (first-dict key order, deduplicated).  Python's set iteration
order is unspecified, but `calculate_similarity` only sums over the set, so
any enumeration of the same members is a faithful embedding. -/
def commonElements (a b : Composition) : List String :=
  (keys a).dedup.filter (fun k => k ∈ keys b)

/-- `d[k]` on a key known to be present (`main.py` line 150 indexes only
common keys); absent keys default to 0, a case the program never reaches. -/
def vlookup (d : Composition) (k : String) : ℚ := (dictLookup d k).getD 0

/-- `AlloyDatabase._calculate_similarity` (`main.py` lines 142-152). -/
def calculate_similarity (a b : Composition) : ℚ :=
  let common := commonElements a b
  if common = [] then 0
  else
    let total_diff := (common.map (fun e => |vlookup a e - vlookup b e|)).sum
    max 0 (1 - total_diff / 100)

/-- One entry of the alloy database: the dict
`{'name': ..., 'composition': ..., 'score': ...}` (the static `score` field
of the demo data is never read by the matcher). -/
structure RefAlloy where
  name : String
  composition : Composition
  score : ℚ
deriving DecidableEq

/-- `AlloyDatabase._load_demo_data` (`main.py` lines 116-124). -/
def load_demo_data : List RefAlloy :=
  [⟨"Латунь Л63", [("Cu", 62.0), ("Zn", 38.0)], 0.85⟩,
   ⟨"Мельхиор МН19", [("Cu", 81.0), ("Ni", 19.0)], 0.78⟩,
   ⟨"Нейзильбер МНЦ15-20", [("Cu", 65.0), ("Ni", 15.0), ("Zn", 20.0)], 0.92⟩,
   ⟨"Бронза БрОФ6.5-0.15", [("Cu", 93.0), ("Sn", 6.5)], 0.45⟩,
   ⟨"Алюминиевый сплав АМг6", [("Al", 94.0), ("Mg", 6.0)], 0.35⟩]

/-- A match dict `{'name': ..., 'score': ..., 'composition': ...}` built on
`main.py` lines 133-137. -/
structure AlloyMatch where
  name : String
  score : ℚ
  composition : Composition
deriving DecidableEq

/-- The accumulation loop of `find_matching_alloys` (`main.py` lines
129-137): score every catalog entry against the query and keep those with
score strictly above 0.3, in catalog order. -/
def candidateMatches (c : Composition) : List AlloyMatch :=
  load_demo_data.filterMap (fun alloy =>
    let score := calculate_similarity c alloy.composition
    if score > 0.3 then some ⟨alloy.name, score, alloy.composition⟩ else none)

/-- Stable insertion into a descending-by-score list: the new element goes
in front of every element of equal score, after every strictly greater
one. -/
def insertDesc (x : AlloyMatch) : List AlloyMatch → List AlloyMatch
  | [] => [x]
  | y :: ys => if y.score > x.score then y :: insertDesc x ys else x :: y :: ys

/-- `sorted(matches, key=lambda x: x['score'], reverse=True)` (`main.py`
line 140): Python's sort is stable, so ties keep their original (catalog)
order; stable insertion sort is its standard functional model. -/
def sortDesc : List AlloyMatch → List AlloyMatch
  | [] => []
  | x :: xs => insertDesc x (sortDesc xs)

/-- `AlloyDatabase.find_matching_alloys` (`main.py` lines 126-140): filter
by threshold, sort by score descending (stable), truncate to 3. -/
def find_matching_alloys (c : Composition) : List AlloyMatch :=
  (sortDesc (candidateMatches c)).take 3

/-- `CompositionAnalyzer.filter_relevant_alloys` (`main.py` lines 108-110):
`[m for m in matches if m.get('score', 0) > 0.3]`.  Every match dict the
program builds carries a `'score'` key, so `m.get('score', 0)` is
`m.score`.  The `composition` argument is unused, as in the source; the
source's parameter name `matches` is a Lean keyword, rendered `ms`. -/
def filter_relevant_alloys (_composition : Composition) (ms : List AlloyMatch) :
    List AlloyMatch :=
  ms.filter (fun m => m.score > 0.3)

/-- The value recorded for element `e` by the rightmost occurrence of `e`
in a word list whose successor token parses as a float; `none` when no
occurrence of `e` records a value. -/
def lastRecovered (e : String) : List String → Option ℚ
  | [] => none
  | [_] => none
  | w :: next :: rest =>
    (lastRecovered e (next :: rest)).or
      (if w = e ∧ w ∈ elements then pyFloat (stripPctComma next) else none)

/-! ## Evaluation lemmas for concrete tokens -/

theorem partsToRat_62_59 : partsToRat ⟨false, ['6', '2'], ['5', '9'], false, []⟩ = 62.59 := by
  have d1 : digitsToNat ['6', '2'] = 62 := by decide
  have d2 : digitsToNat ['5', '9'] = 59 := by decide
  have d0 : digitsToNat ([] : List Char) = 0 := rfl
  norm_num [partsToRat, d1, d2, d0]

theorem partsToRat_33_41 : partsToRat ⟨false, ['3', '3'], ['4', '1'], false, []⟩ = 33.41 := by
  have d1 : digitsToNat ['3', '3'] = 33 := by decide
  have d2 : digitsToNat ['4', '1'] = 41 := by decide
  have d0 : digitsToNat ([] : List Char) = 0 := rfl
  norm_num [partsToRat, d1, d2, d0]

theorem partsToRat_10 : partsToRat ⟨false, ['1', '0'], [], false, []⟩ = 10 := by
  have d1 : digitsToNat ['1', '0'] = 10 := by decide
  have d0 : digitsToNat ([] : List Char) = 0 := rfl
  norm_num [partsToRat, d1, d0]

theorem partsToRat_20 : partsToRat ⟨false, ['2', '0'], [], false, []⟩ = 20 := by
  have d1 : digitsToNat ['2', '0'] = 20 := by decide
  have d0 : digitsToNat ([] : List Char) = 0 := rfl
  norm_num [partsToRat, d1, d0]

theorem pyFloat_62_59 : pyFloat "62.59" = some 62.59 := by
  have h : floatParts "62.59".data = some ⟨false, ['6', '2'], ['5', '9'], false, []⟩ := by decide
  rw [pyFloat, h, Option.map_some', partsToRat_62_59]

theorem pyFloat_33_41 : pyFloat "33.41" = some 33.41 := by
  have h : floatParts "33.41".data = some ⟨false, ['3', '3'], ['4', '1'], false, []⟩ := by decide
  rw [pyFloat, h, Option.map_some', partsToRat_33_41]

theorem pyFloat_10 : pyFloat "10" = some 10 := by
  have h : floatParts "10".data = some ⟨false, ['1', '0'], [], false, []⟩ := by decide
  rw [pyFloat, h, Option.map_some', partsToRat_10]

theorem pyFloat_20 : pyFloat "20" = some 20 := by
  have h : floatParts "20".data = some ⟨false, ['2', '0'], [], false, []⟩ := by decide
  rw [pyFloat, h, Option.map_some', partsToRat_20]

theorem pyFloat_abc : pyFloat "abc" = none := by decide

/-! ## Parser claims -/

/-- C1: the claim says that when zero element/value pairs are recovered,
`parse_composition` returns an empty `Composition` and the demo fallback is
not defined behavior.  The code does the opposite: for an input with no
supported element token it substitutes the fixed demo composition
`{Cu: 75.45, Ni: 12.50, Zn: 9.76}` (`main.py` lines 50-51), so the result
is not empty. -/
theorem parse_no_pairs_falls_back_to_demo :
    parse_composition "hello world" = demoComposition ∧
    parse_composition "hello world" ≠ [] := by
  have h : pySplit "hello world" = ["hello", "world"] := by decide
  have hp : parse_composition "hello world" = demoComposition := by
    simp [parse_composition, h, scanAux, scanStep, elements]
  exact ⟨hp, by rw [hp]; simp [demoComposition]⟩

/-- C2: the claim says `parse_composition "Cu: 62.59, Zn: 33.41"` yields
`{Cu: 62.59, Zn: 33.41}`.  The code splits only on whitespace, so the
tokens are `"Cu:"` and `"Zn:"`, which fail the exact match against the
element vocabulary; zero pairs are recovered and the demo fallback is
returned instead. -/
theorem parse_colon_format_falls_back_to_demo :
    parse_composition "Cu: 62.59, Zn: 33.41" = demoComposition ∧
    parse_composition "Cu: 62.59, Zn: 33.41" ≠ [("Cu", 62.59), ("Zn", 33.41)] := by
  have h : pySplit "Cu: 62.59, Zn: 33.41" = ["Cu:", "62.59,", "Zn:", "33.41"] := by decide
  have hp : parse_composition "Cu: 62.59, Zn: 33.41" = demoComposition := by
    simp [parse_composition, h, scanAux, scanStep, elements]
  refine ⟨hp, ?_⟩
  rw [hp]
  norm_num [demoComposition]

/-- C6: a token following a recognized element symbol that does not parse
as a number discards only that pair: on
`"Cu 62.59 Zn 33.41 Pb abc"` the `Pb`/`"abc"` pair is dropped (the caught
`ValueError` branch) and the result is `{Cu: 62.59, Zn: 33.41}`; the
embedding is a total function, so no exception propagates. -/
theorem parse_malformed_value_dropped :
    parse_composition "Cu 62.59 Zn 33.41 Pb abc" = [("Cu", 62.59), ("Zn", 33.41)] := by
  have h : pySplit "Cu 62.59 Zn 33.41 Pb abc" = ["Cu", "62.59", "Zn", "33.41", "Pb", "abc"] := by
    decide
  have s1 : stripPctComma "62.59" = "62.59" := by decide
  have s2 : stripPctComma "33.41" = "33.41" := by decide
  have s3 : stripPctComma "abc" = "abc" := by decide
  have s4 : stripPctComma "Zn" = "Zn" := by decide
  have s5 : stripPctComma "Pb" = "Pb" := by decide
  simp [parse_composition, h, scanAux, scanStep, elements, s1, s2, s3, s4, s5,
    pyFloat_62_59, pyFloat_33_41, pyFloat_abc, partsToRat_62_59, partsToRat_33_41, dictInsert]

/-! ## Last-write-wins -/

theorem dictLookup_dictInsert (d : Composition) (k k2 : String) (v : ℚ) :
    dictLookup (dictInsert d k v) k2 = if k = k2 then some v else dictLookup d k2 := by
  induction d with
  | nil => simp [dictInsert, dictLookup]
  | cons p d2 ih =>
    obtain ⟨k3, v3⟩ := p
    by_cases h3 : k3 = k
    · subst h3
      by_cases h2 : k3 = k2 <;> simp [dictInsert, dictLookup, h2]
    · by_cases h2 : k3 = k2
      · subst h2
        simp [dictInsert, dictLookup, h3, Ne.symm h3]
      · simp [dictInsert, dictLookup, h3, h2, ih]

theorem dictLookup_scanStep (acc : Composition) (w next e : String) :
    dictLookup (scanStep acc w next) e =
      (if w = e ∧ w ∈ elements then pyFloat (stripPctComma next) else none).or
        (dictLookup acc e) := by
  unfold scanStep
  by_cases hw : w ∈ elements
  · simp only [hw, if_true]
    cases hpf : pyFloat (stripPctComma next) with
    | none =>
      by_cases he : w = e <;> simp [hpf, he, hw]
    | some v =>
      rw [dictLookup_dictInsert]
      by_cases he : w = e <;> simp [he, hw, hpf]
  · have hne : ¬(w = e ∧ w ∈ elements) := fun hh => hw hh.2
    simp [hw, hne]

theorem dictLookup_scanAux (e : String) :
    ∀ (ws : List String) (acc : Composition),
      dictLookup (scanAux ws acc) e = (lastRecovered e ws).or (dictLookup acc e) := by
  intro ws
  induction ws with
  | nil => intro acc; simp [scanAux, lastRecovered]
  | cons w tail ih =>
    intro acc
    cases tail with
    | nil => simp [scanAux, lastRecovered]
    | cons next rest =>
      rw [scanAux, ih, lastRecovered, Option.or_assoc]
      rw [dictLookup_scanStep]

/-- C7: when the same element symbol occurs several times, the later
occurrence overwrites the earlier one: whenever the rightmost
value-recording occurrence of `e` in the word list records `v`
(`lastRecovered`), the parsed composition maps `e` to exactly `v`. -/
theorem parse_last_write_wins (text e : String) (v : ℚ)
    (h : lastRecovered e (pySplit text) = some v) :
    dictLookup (parse_composition text) e = some v := by
  have h2 : dictLookup (scanAux (pySplit text) []) e = some v := by
    rw [dictLookup_scanAux, h]
    rfl
  unfold parse_composition
  by_cases hc : scanAux (pySplit text) [] = []
  · rw [hc] at h2
    simp [dictLookup] at h2
  · simp only [hc, if_neg, ite_false]
    exact h2

/-- Witness for C7 at the concrete input `"Cu 10 Cu 20"`: the rightmost
`Cu` pair records 20, and the parse maps `Cu` to 20 (overwriting 10). -/
theorem parse_last_write_wins_witness :
    lastRecovered "Cu" (pySplit "Cu 10 Cu 20") = some 20 ∧
    dictLookup (parse_composition "Cu 10 Cu 20") "Cu" = some 20 := by
  have hs : pySplit "Cu 10 Cu 20" = ["Cu", "10", "Cu", "20"] := by decide
  have s1 : stripPctComma "10" = "10" := by decide
  have s2 : stripPctComma "20" = "20" := by decide
  have s3 : stripPctComma "Cu" = "Cu" := by decide
  have h : lastRecovered "Cu" (pySplit "Cu 10 Cu 20") = some 20 := by
    simp [hs, lastRecovered, elements, s1, s2, s3, pyFloat_10, pyFloat_20]
  exact ⟨h, parse_last_write_wins "Cu 10 Cu 20" "Cu" 20 h⟩

/-! ## Similarity scorer -/

theorem mem_commonElements (a b : Composition) (k : String) :
    k ∈ commonElements a b ↔ k ∈ keys a ∧ k ∈ keys b := by
  simp [commonElements, List.mem_filter, List.mem_dedup]

/-- C4: `calculate_similarity` returns 0 on key-disjoint compositions,
otherwise `max 0 (1 - (Σ |a[e] - b[e]| over common e) / 100)`, and the
result always lies in `[0, 1]`. -/
theorem calculate_similarity_spec (a b : Composition) :
    ((∀ k, k ∈ keys a → k ∉ keys b) → calculate_similarity a b = 0) ∧
    ((∃ k, k ∈ keys a ∧ k ∈ keys b) →
      calculate_similarity a b =
        max 0 (1 - ((commonElements a b).map (fun e => |vlookup a e - vlookup b e|)).sum / 100)) ∧
    0 ≤ calculate_similarity a b ∧ calculate_similarity a b ≤ 1 := by
  refine ⟨?_, ?_, ?_⟩
  · intro hdisj
    have hnil : commonElements a b = [] := by
      rw [List.eq_nil_iff_forall_not_mem]
      intro k hk
      rcases (mem_commonElements a b k).1 hk with ⟨h1, h2⟩
      exact hdisj k h1 h2
    simp [calculate_similarity, hnil]
  · rintro ⟨k, h1, h2⟩
    have hk : k ∈ commonElements a b := (mem_commonElements a b k).2 ⟨h1, h2⟩
    have hne : commonElements a b ≠ [] := List.ne_nil_of_mem hk
    simp [calculate_similarity, hne]
  · by_cases hc : commonElements a b = []
    · simp [calculate_similarity, hc]
    · have hs : 0 ≤ ((commonElements a b).map (fun e => |vlookup a e - vlookup b e|)).sum := by
        apply List.sum_nonneg
        intro x hx
        rcases List.mem_map.1 hx with ⟨e, _, rfl⟩
        exact abs_nonneg _
      constructor
      · simp [calculate_similarity, hc]
      · simp only [calculate_similarity, hc, if_neg, ite_false]
        apply max_le
        · norm_num
        · nlinarith [hs]

/-- Witness for C4: key-disjoint compositions score 0. -/
theorem calculate_similarity_spec_witness :
    calculate_similarity [("Cu", 50)] [("Zn", 50)] = 0 := by
  apply (calculate_similarity_spec [("Cu", 50)] [("Zn", 50)]).1
  intro k hk
  simp [keys] at hk ⊢
  subst hk
  decide

/-- C9: a non-empty composition scored against itself yields the maximum
score 1. -/
theorem calculate_similarity_self (a : Composition) (h : a ≠ []) :
    calculate_similarity a a = 1 := by
  have hne : commonElements a a ≠ [] := by
    cases a with
    | nil => exact absurd rfl h
    | cons p ps =>
      apply List.ne_nil_of_mem (a := p.1)
      apply (mem_commonElements _ _ _).2
      constructor <;> simp [keys]
  have hzero : ((commonElements a a).map (fun e => |vlookup a e - vlookup a e|)).sum = 0 := by
    apply List.sum_eq_zero
    intro x hx
    rcases List.mem_map.1 hx with ⟨e, _, rfl⟩
    simp
  simp [calculate_similarity, hne, hzero]

/-- Witness for C9 at the concrete composition `{Cu: 60}`. -/
theorem calculate_similarity_self_witness :
    calculate_similarity [("Cu", 60)] [("Cu", 60)] = 1 :=
  calculate_similarity_self [("Cu", 60)] (by simp)

/-! ## Matcher -/

theorem mem_insertDesc (x m : AlloyMatch) (l : List AlloyMatch) :
    m ∈ insertDesc x l ↔ m = x ∨ m ∈ l := by
  induction l with
  | nil => simp [insertDesc]
  | cons y ys ih =>
    by_cases h : y.score > x.score <;> simp [insertDesc, h, ih]
    tauto

theorem mem_sortDesc (m : AlloyMatch) (l : List AlloyMatch) :
    m ∈ sortDesc l ↔ m ∈ l := by
  induction l with
  | nil => simp [sortDesc]
  | cons x xs ih => simp [sortDesc, mem_insertDesc, ih]

theorem pairwise_insertDesc (x : AlloyMatch) (l : List AlloyMatch)
    (hl : List.Pairwise (fun p q => q.score ≤ p.score) l) :
    List.Pairwise (fun p q => q.score ≤ p.score) (insertDesc x l) := by
  induction l with
  | nil => simp [insertDesc]
  | cons y ys ih =>
    rcases List.pairwise_cons.1 hl with ⟨hy, hys⟩
    by_cases h : y.score > x.score
    · rw [insertDesc, if_pos h]
      refine List.pairwise_cons.2 ⟨?_, ih hys⟩
      intro q hq
      rcases (mem_insertDesc x q ys).1 hq with rfl | hq2
      · exact le_of_lt h
      · exact hy q hq2
    · rw [insertDesc, if_neg h]
      refine List.pairwise_cons.2 ⟨?_, hl⟩
      intro q hq
      rcases List.mem_cons.1 hq with rfl | hq2
      · exact le_of_not_lt h
      · exact le_trans (hy q hq2) (le_of_not_lt h)

theorem pairwise_sortDesc (l : List AlloyMatch) :
    List.Pairwise (fun p q => q.score ≤ p.score) (sortDesc l) := by
  induction l with
  | nil => simp [sortDesc]
  | cons x xs ih => exact pairwise_insertDesc x (sortDesc xs) ih

theorem filter_insertDesc (x : AlloyMatch) (l : List AlloyMatch) (s : ℚ)
    (hl : List.Pairwise (fun p q => q.score ≤ p.score) l) :
    (insertDesc x l).filter (fun m => m.score = s) =
      if x.score = s then x :: l.filter (fun m => m.score = s)
      else l.filter (fun m => m.score = s) := by
  induction l with
  | nil => by_cases hx : x.score = s <;> simp [insertDesc, hx]
  | cons y ys ih =>
    rcases List.pairwise_cons.1 hl with ⟨_, hys⟩
    by_cases h : y.score > x.score
    · rw [insertDesc, if_pos h]
      by_cases hx : x.score = s
      · have hyne : ¬(y.score = s) := by rw [← hx]; exact ne_of_gt h
        simp [List.filter_cons, hyne, ih hys, hx]
      · simp [List.filter_cons, ih hys, hx]
    · rw [insertDesc, if_neg h]
      by_cases hx : x.score = s <;> simp [List.filter_cons, hx]

/-- Stability of the sort model: for every score value, the entries with
that score come out of the sort in their original (catalog) order. -/
theorem filter_sortDesc (l : List AlloyMatch) (s : ℚ) :
    (sortDesc l).filter (fun m => m.score = s) = l.filter (fun m => m.score = s) := by
  induction l with
  | nil => simp [sortDesc]
  | cons x xs ih =>
    rw [sortDesc, filter_insertDesc x (sortDesc xs) s (pairwise_sortDesc xs), List.filter_cons]
    by_cases hx : x.score = s <;> simp [hx, ih]

theorem length_insertDesc (x : AlloyMatch) (l : List AlloyMatch) :
    (insertDesc x l).length = l.length + 1 := by
  induction l with
  | nil => simp [insertDesc]
  | cons y ys ih =>
    by_cases h : y.score > x.score <;> simp [insertDesc, h, ih]

theorem length_sortDesc (l : List AlloyMatch) : (sortDesc l).length = l.length := by
  induction l with
  | nil => simp [sortDesc]
  | cons x xs ih => simp [sortDesc, length_insertDesc, ih]

theorem candidateMatches_score (c : Composition) (m : AlloyMatch)
    (hm : m ∈ candidateMatches c) : 0.3 < m.score := by
  rcases List.mem_filterMap.1 hm with ⟨alloy, _, heq⟩
  simp only at heq
  split at heq
  · cases heq
    assumption
  · cases heq

theorem find_matching_alloys_subset_candidates (c : Composition) (m : AlloyMatch)
    (hm : m ∈ find_matching_alloys c) : m ∈ candidateMatches c := by
  have h1 : m ∈ sortDesc (candidateMatches c) := List.take_subset 3 _ hm
  exact (mem_sortDesc m _).1 h1

/-- C3: `find_matching_alloys` returns at most 3 entries, every returned
entry has score strictly above the 0.3 threshold and comes from thresholded
scoring of the catalog, the result is sorted by score descending, the sort
is stable (per score value, catalog order is preserved), and when at most 3
entries clear the threshold every one of them is returned. -/
theorem find_matching_alloys_spec (c : Composition) :
    (find_matching_alloys c).length ≤ 3 ∧
    (∀ m ∈ find_matching_alloys c, 0.3 < m.score) ∧
    List.Pairwise (fun p q => q.score ≤ p.score) (find_matching_alloys c) ∧
    (∀ m ∈ find_matching_alloys c, m ∈ candidateMatches c) ∧
    (∀ s : ℚ, (sortDesc (candidateMatches c)).filter (fun m => m.score = s) =
      (candidateMatches c).filter (fun m => m.score = s)) ∧
    ((candidateMatches c).length ≤ 3 → ∀ m ∈ candidateMatches c, m ∈ find_matching_alloys c) := by
  refine ⟨?_, ?_, ?_, ?_, ?_, ?_⟩
  · rw [find_matching_alloys, List.length_take]
    exact min_le_left _ _
  · exact fun m hm => candidateMatches_score c m (find_matching_alloys_subset_candidates c m hm)
  · exact List.Pairwise.sublist (List.take_sublist 3 _) (pairwise_sortDesc _)
  · exact fun m hm => find_matching_alloys_subset_candidates c m hm
  · exact fun s => filter_sortDesc _ s
  · intro hlen m hm
    rw [find_matching_alloys, List.take_of_length_le (by rw [length_sortDesc]; exact hlen)]
    exact (mem_sortDesc m _).2 hm

/-- C10: the post-filter `filter_relevant_alloys` is the identity on the
output of `find_matching_alloys`, because the matcher already removed every
entry with score ≤ 0.3. -/
theorem filter_relevant_alloys_identity (c : Composition) :
    filter_relevant_alloys c (find_matching_alloys c) = find_matching_alloys c := by
  rw [filter_relevant_alloys, List.filter_eq_self]
  intro m hm
  have h := candidateMatches_score c m (find_matching_alloys_subset_candidates c m hm)
  simpa using h

/-! ## Concrete matcher evaluation for the query {Cu: 62.0, Zn: 38.0} -/

theorem sim_query_l63 :
    calculate_similarity [("Cu", 62.0), ("Zn", 38.0)] [("Cu", 62.0), ("Zn", 38.0)] = 1 := by
  have hcommon : commonElements [("Cu", 62.0), ("Zn", 38.0)] [("Cu", 62.0), ("Zn", 38.0)] =
      ["Cu", "Zn"] := by decide
  simp +decide only [calculate_similarity, hcommon, vlookup, dictLookup,
    List.map_cons, List.map_nil, List.sum_cons, List.sum_nil, Option.getD_some]
  norm_num

theorem sim_query_mn19 :
    calculate_similarity [("Cu", 62.0), ("Zn", 38.0)] [("Cu", 81.0), ("Ni", 19.0)] = 0.81 := by
  have hcommon : commonElements [("Cu", 62.0), ("Zn", 38.0)] [("Cu", 81.0), ("Ni", 19.0)] =
      ["Cu"] := by decide
  simp +decide only [calculate_similarity, hcommon, vlookup, dictLookup,
    List.map_cons, List.map_nil, List.sum_cons, List.sum_nil, Option.getD_some]
  norm_num

theorem sim_query_mnc15 :
    calculate_similarity [("Cu", 62.0), ("Zn", 38.0)]
      [("Cu", 65.0), ("Ni", 15.0), ("Zn", 20.0)] = 0.79 := by
  have hcommon : commonElements [("Cu", 62.0), ("Zn", 38.0)]
      [("Cu", 65.0), ("Ni", 15.0), ("Zn", 20.0)] = ["Cu", "Zn"] := by decide
  simp +decide only [calculate_similarity, hcommon, vlookup, dictLookup,
    List.map_cons, List.map_nil, List.sum_cons, List.sum_nil, Option.getD_some]
  norm_num

theorem sim_query_brof :
    calculate_similarity [("Cu", 62.0), ("Zn", 38.0)] [("Cu", 93.0), ("Sn", 6.5)] = 0.69 := by
  have hcommon : commonElements [("Cu", 62.0), ("Zn", 38.0)] [("Cu", 93.0), ("Sn", 6.5)] =
      ["Cu"] := by decide
  simp +decide only [calculate_similarity, hcommon, vlookup, dictLookup,
    List.map_cons, List.map_nil, List.sum_cons, List.sum_nil, Option.getD_some]
  norm_num

theorem sim_query_amg6 :
    calculate_similarity [("Cu", 62.0), ("Zn", 38.0)] [("Al", 94.0), ("Mg", 6.0)] = 0 := by
  have hcommon : commonElements [("Cu", 62.0), ("Zn", 38.0)] [("Al", 94.0), ("Mg", 6.0)] =
      [] := by decide
  simp [calculate_similarity, hcommon]

theorem candidateMatches_query :
    candidateMatches [("Cu", 62.0), ("Zn", 38.0)] =
      [⟨"Латунь Л63", 1, [("Cu", 62.0), ("Zn", 38.0)]⟩,
       ⟨"Мельхиор МН19", 0.81, [("Cu", 81.0), ("Ni", 19.0)]⟩,
       ⟨"Нейзильбер МНЦ15-20", 0.79, [("Cu", 65.0), ("Ni", 15.0), ("Zn", 20.0)]⟩,
       ⟨"Бронза БрОФ6.5-0.15", 0.69, [("Cu", 93.0), ("Sn", 6.5)]⟩] := by
  simp only [candidateMatches, load_demo_data, List.filterMap_cons, List.filterMap_nil,
    sim_query_l63, sim_query_mn19, sim_query_mnc15, sim_query_brof, sim_query_amg6]
  norm_num

theorem sortDesc_query :
    sortDesc
      [⟨"Латунь Л63", 1, [("Cu", 62.0), ("Zn", 38.0)]⟩,
       ⟨"Мельхиор МН19", 0.81, [("Cu", 81.0), ("Ni", 19.0)]⟩,
       ⟨"Нейзильбер МНЦ15-20", 0.79, [("Cu", 65.0), ("Ni", 15.0), ("Zn", 20.0)]⟩,
       ⟨"Бронза БрОФ6.5-0.15", 0.69, [("Cu", 93.0), ("Sn", 6.5)]⟩] =
      [⟨"Латунь Л63", 1, [("Cu", 62.0), ("Zn", 38.0)]⟩,
       ⟨"Мельхиор МН19", 0.81, [("Cu", 81.0), ("Ni", 19.0)]⟩,
       ⟨"Нейзильбер МНЦ15-20", 0.79, [("Cu", 65.0), ("Ni", 15.0), ("Zn", 20.0)]⟩,
       ⟨"Бронза БрОФ6.5-0.15", 0.69, [("Cu", 93.0), ("Sn", 6.5)]⟩] := by
  norm_num [sortDesc, insertDesc]

theorem find_matching_alloys_query :
    find_matching_alloys [("Cu", 62.0), ("Zn", 38.0)] =
      [⟨"Латунь Л63", 1, [("Cu", 62.0), ("Zn", 38.0)]⟩,
       ⟨"Мельхиор МН19", 0.81, [("Cu", 81.0), ("Ni", 19.0)]⟩,
       ⟨"Нейзильбер МНЦ15-20", 0.79, [("Cu", 65.0), ("Ni", 15.0), ("Zn", 20.0)]⟩] := by
  rw [find_matching_alloys, candidateMatches_query, sortDesc_query]
  rfl

/-- C5: for the query `{Cu: 62.0, Zn: 38.0}` against the demo catalog, the
entry `Латунь Л63` (whose composition is exactly the query) is returned
first, with score 1. -/
theorem brass_l63_matched_first :
    (find_matching_alloys [("Cu", 62.0), ("Zn", 38.0)]).head? =
      some ⟨"Латунь Л63", 1, [("Cu", 62.0), ("Zn", 38.0)]⟩ := by
  rw [find_matching_alloys_query]
  rfl

/-- Witness for C3: the first conjuncts applied at the concrete query
`{Cu: 62.0, Zn: 38.0}`, with the membership hypothesis discharged at the
top returned match. -/
theorem find_matching_alloys_spec_witness :
    (0.3 : ℚ) < (AlloyMatch.mk "Латунь Л63" 1 [("Cu", 62.0), ("Zn", 38.0)]).score := by
  apply (find_matching_alloys_spec [("Cu", 62.0), ("Zn", 38.0)]).2.1
  rw [find_matching_alloys_query]
  simp

/-! ## Analyzer -/

/-- C8: `analyze_composition` on the empty composition returns the `none`
sentinel as dominant element and the generic multi-component description,
and (being a total function) raises nothing. -/
theorem analyze_empty_composition :
    (analyze_composition []).main_element = none ∧
    (analyze_composition []).description =
      "Это сложный многокомпонентный сплав с интересными свойствами." := by
  constructor <;> rfl

end MetalBot
